import Mathlib

/-!
Verification of the draft-synchronization subsystem
(`zerver/lib/drafts.py` and `zerver/views/drafts.py`).

The Python source is embedded shallowly:

* client payloads and persisted records become Lean structures;
* the external collaborators (`access_stream_by_id`,
  `get_user_profiles_by_ids`, `recipient_for_user_profiles`) become an
  explicit environment of service functions;
* the relational store becomes an explicit `DB` value threaded through
  the operations;
* raised `JsonableError`s become an explicit error type, and every
  fallible operation returns the (possibly unchanged) store together
  with an `Except` outcome.

Numbers arriving as Unix timestamps are modelled as exact rationals.
-/

/-- Opaque handle for a resolved recipient (the spec treats recipients as
opaque values produced by the external resolution collaborators). -/
abbrev Recipient := Nat

/-- Modelled from the spec: platform limits ("the platform's maximum
message length" and "maximum topic length"); the numeric constants live
outside `src/`, so the limits are carried as parameters. -/
structure Platform where
  maxMessageLength : Nat
  maxTopicLength : Nat
deriving DecidableEq

/-- The acting user entity.  `full_name` stands in for all persisted user
fields other than the sync flag, so that frame properties ("persists only
that field") are statable. -/
structure UserProfile where
  id : Nat
  realm : Nat
  enable_drafts_synchronization : Bool
  full_name : String
deriving DecidableEq

/-- A client-supplied draft payload, already past JSON decoding, as
validated structurally by `draft_dict_validator`. -/
structure DraftPayload where
  type : String
  «to» : List Int
  topic : String
  content : String
  timestamp : Option ℚ
deriving DecidableEq

/-- The output of `further_validated_draft_dict`: the keys of the returned
dictionary, usable to directly create a `Draft` row.  `last_edit_time` is
the resolved instant as an integer count of microseconds since the epoch
(the precision of the `datetime` produced by `timestamp_to_datetime`). -/
structure NormalizedDraft where
  recipient : Option Recipient
  topic : String
  content : String
  last_edit_time : ℤ
deriving DecidableEq

/-- A persisted `Draft` row: server-assigned id, owning user
(`user_profile` foreign key), and the normalized fields. -/
structure Draft where
  id : Nat
  user_profile : Nat
  recipient : Option Recipient
  topic : String
  content : String
  last_edit_time : ℤ
deriving DecidableEq

/-- The relational store: the user table, the draft table, and the next
primary key the store will assign to a draft. -/
structure DB where
  users : List UserProfile
  drafts : List Draft
  nextId : Nat
deriving DecidableEq

/-- The `JsonableError`s the subsystem can raise, one constructor per
distinct error message; `external` carries a message propagated from one
of the external resolution collaborators. -/
inductive DraftError where
  | syncNotEnabled
  | schemaError
  | contentNullBytes
  | timestampNegative
  | topicNullBytes
  | mustSpecifyExactlyOneStreamId
  | draftDoesNotExist
  | external (msg : String)
deriving DecidableEq

/-- The external collaborators consumed by the normalizer, as opaque
service functions: stream access (already projected onto the stream's
recipient handle), user-profile lookup by id set within a realm, and
canonical direct-message recipient resolution. -/
structure Env where
  accessStreamById : Nat → Int → Except String Recipient
  getUserProfilesByIds : Finset Int → Nat → Except String (List Nat)
  recipientForUserProfiles : List Nat → Nat → Except String Recipient

/-- `VALID_DRAFT_TYPES`. -/
def VALID_DRAFT_TYPES : List String := ["", "private", "stream"]

/-- `draft_dict_validator`: the structural schema check.  Field types and
key structure are enforced by `DraftPayload` itself; what remains is the
enumeration check on `type` and `check_required_string` on `content`. -/
def draft_dict_validator (d : DraftPayload) : Bool :=
  d.type ∈ VALID_DRAFT_TYPES && d.content ≠ ""

/-- Modelled from the spec: `truncate_body` (from `zerver.lib.message`,
absent from `src/`) truncates content to the platform's maximum message
length. -/
def truncate_body (pf : Platform) (s : String) : String :=
  if pf.maxMessageLength < s.data.length then ⟨s.data.take pf.maxMessageLength⟩ else s

/-- Modelled from the spec: `truncate_topic` (from `zerver.lib.message`,
absent from `src/`) truncates a topic to the platform's maximum topic
length. -/
def truncate_topic (pf : Platform) (s : String) : String :=
  if pf.maxTopicLength < s.data.length then ⟨s.data.take pf.maxTopicLength⟩ else s

/-- `"\x00" in s`. -/
def containsNull (s : String) : Bool :=
  s.data.any (fun c => c == Char.ofNat 0)

/-- `round(timestamp, 6)` followed by `timestamp_to_datetime`: the
timestamp rounded to 6 decimal places (microsecond precision), returned
as the integer count of microseconds it denotes.  Rounding ties go to the
even microsecond, the tie-breaking rule of Python's builtin `round`.  The
arithmetic is carried out on the numerator and denominator directly (for
`q = n / d` with `d > 0`, the microsecond count lies between
`f = ⌊n * 10^6 / d⌋` and `f + 1`, and `r / d` with `r = n * 10^6 % d` is
the fractional part deciding the direction). -/
def roundMicros (q : ℚ) : ℤ :=
  let t := q.num * 1000000
  let d := (q.den : ℤ)
  let f := t / d
  let r := t % d
  if 2 * r < d then f
  else if d < 2 * r then f + 1
  else if f % 2 = 0 then f else f + 1

/-- `further_validated_draft_dict`: sanitize, validate and transform a
structurally valid payload.  `now` is the wall-clock reading used when the
payload carries no timestamp (`time.time()`). -/
def further_validated_draft_dict (env : Env) (pf : Platform) (now : ℚ)
    (draft_dict : DraftPayload) (user_profile : UserProfile) :
    Except DraftError NormalizedDraft :=
  let content := truncate_body pf draft_dict.content
  if containsNull content then .error .contentNullBytes
  else
    let timestamp := roundMicros (draft_dict.timestamp.getD now)
    if timestamp < 0 then .error .timestampNegative
    else
      let last_edit_time := timestamp
      if draft_dict.type = "stream" then
        let topic := truncate_topic pf draft_dict.topic
        if containsNull topic then .error .topicNullBytes
        else if draft_dict.«to».length ≠ 1 then .error .mustSpecifyExactlyOneStreamId
        else
          match env.accessStreamById user_profile.id (draft_dict.«to».headD 0) with
          | .error msg => .error (.external msg)
          | .ok recipient =>
            .ok ⟨some recipient, topic, content, last_edit_time⟩
      else if draft_dict.type = "private" ∧ draft_dict.«to».length ≠ 0 then
        match env.getUserProfilesByIds draft_dict.«to».toFinset user_profile.realm with
        | .error msg => .error (.external msg)
        | .ok to_users =>
          match env.recipientForUserProfiles to_users user_profile.id with
          | .error msg => .error (.external msg)
          | .ok recipient =>
            .ok ⟨some recipient, "", content, last_edit_time⟩
      else .ok ⟨none, "", content, last_edit_time⟩

/-- `draft_endpoint`: the decorator gating every draft view on the acting
user's `enable_drafts_synchronization` flag. -/
def draft_endpoint {α : Type} (view_func : UserProfile → DB → DB × Except DraftError α)
    (user_profile : UserProfile) (db : DB) : DB × Except DraftError α :=
  if user_profile.enable_drafts_synchronization then view_func user_profile db
  else (db, .error .syncNotEnabled)

/-- The normalization loop of `do_create_drafts`: normalize the payloads
in order, aborting at the first failure. -/
def normalizeAll (env : Env) (pf : Platform) (now : ℚ)
    (user_profile : UserProfile) : List DraftPayload → Except DraftError (List NormalizedDraft)
  | [] => .ok []
  | d :: ds =>
    match further_validated_draft_dict env pf now d user_profile with
    | .error e => .error e
    | .ok v =>
      match normalizeAll env pf now user_profile ds with
      | .error e => .error e
      | .ok vs => .ok (v :: vs)

/-- `Draft.objects.bulk_create`: turn the normalized dicts into rows, the
store assigning consecutive primary keys starting at `next`. -/
def buildDraftObjects (user_profile : UserProfile) (next : Nat) :
    List NormalizedDraft → List Draft
  | [] => []
  | v :: vs =>
    ⟨next, user_profile.id, v.recipient, v.topic, v.content, v.last_edit_time⟩ ::
      buildDraftObjects user_profile (next + 1) vs

/-- `do_create_drafts`: normalize every payload, then insert all
resulting rows in a single bulk operation and return the created rows'
ids.  A normalization failure aborts before anything touches the store. -/
def do_create_drafts (env : Env) (pf : Platform) (now : ℚ)
    (draft_dicts : List DraftPayload) (user_profile : UserProfile) (db : DB) :
    DB × Except DraftError (List Nat) :=
  match normalizeAll env pf now user_profile draft_dicts with
  | .error e => (db, .error e)
  | .ok vs =>
    let created := buildDraftObjects user_profile db.nextId vs
    ({ db with drafts := db.drafts ++ created, nextId := db.nextId + vs.length },
     .ok (created.map (·.id)))

/-- `Draft.objects.get(id=draft_id, user_profile=user_profile)`: the
lookup scoped to the `(id, user)` pair. -/
def findDraft (db : DB) (draft_id : Nat) (user_profile : UserProfile) : Option Draft :=
  db.drafts.find? (fun d => d.id == draft_id && d.user_profile == user_profile.id)

/-- `do_edit_draft`: scoped lookup, then normalization, then a full
overwrite of the found row's draft fields. -/
def do_edit_draft (env : Env) (pf : Platform) (now : ℚ) (draft_id : Nat)
    (draft_dict : DraftPayload) (user_profile : UserProfile) (db : DB) :
    DB × Except DraftError Unit :=
  match findDraft db draft_id user_profile with
  | none => (db, .error .draftDoesNotExist)
  | some _ =>
    match further_validated_draft_dict env pf now draft_dict user_profile with
    | .error e => (db, .error e)
    | .ok v =>
      ({ db with drafts := db.drafts.map (fun d =>
            if d.id == draft_id && d.user_profile == user_profile.id then
              { d with content := v.content, topic := v.topic,
                       recipient := v.recipient, last_edit_time := v.last_edit_time }
            else d) },
       .ok ())

/-- `do_delete_draft`: scoped lookup, then deletion of the found row. -/
def do_delete_draft (draft_id : Nat) (user_profile : UserProfile) (db : DB) :
    DB × Except DraftError Unit :=
  match findDraft db draft_id user_profile with
  | none => (db, .error .draftDoesNotExist)
  | some _ =>
    ({ db with drafts := db.drafts.filter (fun d =>
          !(d.id == draft_id && d.user_profile == user_profile.id)) },
     .ok ())

/-- `user_profile.save(update_fields=["enable_drafts_synchronization"])`:
persist only the sync flag of the acting user's row; every other stored
field keeps its stored value. -/
def saveSyncFlag (users : List UserProfile) (user_profile : UserProfile) (b : Bool) :
    List UserProfile :=
  users.map (fun v =>
    if v.id == user_profile.id then { v with enable_drafts_synchronization := b } else v)

/-- `do_enable_drafts_syncing`. -/
def do_enable_drafts_syncing (user_profile : UserProfile) (db : DB) : DB :=
  { db with users := saveSyncFlag db.users user_profile true }

/-- `do_disable_drafts_syncing`: persist the flag as false, then
`Draft.objects.filter(user_profile=user_profile).delete()`. -/
def do_disable_drafts_syncing (user_profile : UserProfile) (db : DB) : DB :=
  let db' := { db with users := saveSyncFlag db.users user_profile false }
  { db' with drafts := db'.drafts.filter (fun d => !(d.user_profile == user_profile.id)) }

/-- Insert a draft into a list sorted by ascending `last_edit_time`. -/
def insertByTime (d : Draft) : List Draft → List Draft
  | [] => [d]
  | e :: es => if d.last_edit_time ≤ e.last_edit_time then d :: e :: es
               else e :: insertByTime d es

/-- `order_by("last_edit_time")`. -/
def sortByTime (l : List Draft) : List Draft :=
  l.foldr insertByTime []

/-- `fetch_drafts` view: the user's drafts ordered by ascending edit time,
with a count. -/
def fetch_drafts (user_profile : UserProfile) (db : DB) :
    DB × Except DraftError (Nat × List Draft) :=
  draft_endpoint (fun user_profile db =>
    let user_drafts := sortByTime (db.drafts.filter (fun d => d.user_profile == user_profile.id))
    (db, .ok (user_drafts.length, user_drafts))) user_profile db

/-- `create_drafts` view: gate, then the `REQ` structural validation of
every payload, then `do_create_drafts`, answering with the created ids. -/
def create_drafts (env : Env) (pf : Platform) (now : ℚ)
    (draft_dicts : List DraftPayload) (user_profile : UserProfile) (db : DB) :
    DB × Except DraftError (List Nat) :=
  draft_endpoint (fun user_profile db =>
    if draft_dicts.all draft_dict_validator then
      do_create_drafts env pf now draft_dicts user_profile db
    else (db, .error .schemaError)) user_profile db

/-- `edit_draft` view: gate, then the `REQ` structural validation of the
payload, then `do_edit_draft`. -/
def edit_draft (env : Env) (pf : Platform) (now : ℚ) (draft_id : Nat)
    (draft_dict : DraftPayload) (user_profile : UserProfile) (db : DB) :
    DB × Except DraftError Unit :=
  draft_endpoint (fun user_profile db =>
    if draft_dict_validator draft_dict then
      do_edit_draft env pf now draft_id draft_dict user_profile db
    else (db, .error .schemaError)) user_profile db

/-- `delete_draft` view: gate, then `do_delete_draft`. -/
def delete_draft (draft_id : Nat) (user_profile : UserProfile) (db : DB) :
    DB × Except DraftError Unit :=
  draft_endpoint (fun user_profile db =>
    do_delete_draft draft_id user_profile db) user_profile db

/-- The frame of `save(update_fields=[enable_drafts_synchronization])`:
row for row, ids, realms and names are unchanged; rows whose id is the
acting user's get sync flag `b`, every other row keeps its flag. -/
def usersOnlyFlagChanged (new old : List UserProfile) (u : UserProfile) (b : Bool) : Prop :=
  new.length = old.length ∧
  ∀ i (h1 : i < new.length) (h2 : i < old.length),
    (new.get ⟨i, h1⟩).id = (old.get ⟨i, h2⟩).id ∧
    (new.get ⟨i, h1⟩).realm = (old.get ⟨i, h2⟩).realm ∧
    (new.get ⟨i, h1⟩).full_name = (old.get ⟨i, h2⟩).full_name ∧
    (new.get ⟨i, h1⟩).enable_drafts_synchronization
      = (if (old.get ⟨i, h2⟩).id = u.id then b
         else (old.get ⟨i, h2⟩).enable_drafts_synchronization)

/-- A concrete environment in which every resolution succeeds. -/
def envW : Env :=
  ⟨fun _ _ => .ok 11, fun _ _ => .ok [1, 2], fun _ _ => .ok 22⟩

/-- A concrete platform with small limits, so that truncation is
exercised on short strings. -/
def pfW : Platform := ⟨8, 4⟩

/-- User A of the two-user scenarios. -/
def userA : UserProfile := ⟨1, 1, true, "Alice"⟩

/-- User B of the two-user scenarios. -/
def userB : UserProfile := ⟨2, 1, true, "Bob"⟩

/-- A user whose sync preference is off. -/
def userOff : UserProfile := ⟨3, 1, false, "Carol"⟩

/-- A draft row owned by user A. -/
def draftA : Draft := ⟨10, 1, none, "", "hi", 5⟩

/-- A store holding the three users and user A's draft. -/
def dbW : DB := ⟨[userA, userB, userOff], [draftA], 11⟩

/-- An undirected payload. -/
def payloadW : DraftPayload := ⟨"", [], "t", "hi", some 5⟩

instance {ε α : Type} [DecidableEq ε] [DecidableEq α] : DecidableEq (Except ε α) :=
  fun a b =>
    match a, b with
    | .error e, .error f =>
      if h : e = f then .isTrue (congrArg Except.error h)
      else .isFalse (fun hc => h (Except.error.inj hc))
    | .error _, .ok _ => .isFalse Except.noConfusion
    | .ok _, .error _ => .isFalse Except.noConfusion
    | .ok a, .ok b =>
      if h : a = b then .isTrue (congrArg Except.ok h)
      else .isFalse (fun hc => h (Except.ok.inj hc))

example : further_validated_draft_dict envW pfW 0 payloadW userA
    = .ok ⟨none, "", "hi", 5000000⟩ := by decide

example : further_validated_draft_dict envW pfW 0 ⟨"stream", [5, 6], "t", "\x00c", some 5⟩ userA
    = .error .contentNullBytes := by decide

example : further_validated_draft_dict envW pfW 0 ⟨"stream", [5, 6], "t", "c", some 5⟩ userA
    = .error .mustSpecifyExactlyOneStreamId := by decide

example : further_validated_draft_dict envW pfW 0 ⟨"stream", [5], "t", "c", some 5⟩ userA
    = .ok ⟨some 11, "t", "c", 5000000⟩ := by decide

example : further_validated_draft_dict envW pfW 0 ⟨"private", [7], "t\x00t", "c", some 5⟩ userA
    = .ok ⟨some 22, "", "c", 5000000⟩ := by decide

example : further_validated_draft_dict envW pfW 0 ⟨"", [], "t", "c", some (-1)⟩ userA
    = .error .timestampNegative := by decide

example : further_validated_draft_dict envW pfW 0 ⟨"", [], "t", "abcdefghi\x00", none⟩ userA
    = .ok ⟨none, "", "abcdefgh", 0⟩ := by decide

example : roundMicros (Rat.divInt 5 3) = 1666667 := by decide

example : roundMicros (Rat.divInt 5 2000000) = 2 := by decide

example : roundMicros (Rat.divInt 7 2000000) = 4 := by decide

example : do_create_drafts envW pfW 0 [payloadW, ⟨"", [], "", "\x00", none⟩] userA dbW
    = (dbW, .error .contentNullBytes) := by decide

theorem fv_content_error_iff (env : Env) (pf : Platform) (now : ℚ)
    (p : DraftPayload) (u : UserProfile) :
    further_validated_draft_dict env pf now p u = .error .contentNullBytes
      ↔ containsNull (truncate_body pf p.content) = true := by
  constructor
  · intro h
    unfold further_validated_draft_dict at h
    repeat' split at h <;> try simp_all
  · intro h
    unfold further_validated_draft_dict
    simp [h]

theorem fv_ok_content (env : Env) (pf : Platform) (now : ℚ)
    (p : DraftPayload) (u : UserProfile) (d : NormalizedDraft)
    (h : further_validated_draft_dict env pf now p u = .ok d) :
    d.content = truncate_body pf p.content := by
  unfold further_validated_draft_dict at h
  repeat' split at h <;> try simp_all
  all_goals simp [← h]
theorem fv_timestamp_error_iff (env : Env) (pf : Platform) (now : ℚ)
    (p : DraftPayload) (u : UserProfile) :
    further_validated_draft_dict env pf now p u = .error .timestampNegative
      ↔ containsNull (truncate_body pf p.content) = false
        ∧ roundMicros (p.timestamp.getD now) < 0 := by
  constructor
  · intro h
    unfold further_validated_draft_dict at h
    repeat' split at h <;> try simp_all
  · intro h
    unfold further_validated_draft_dict
    simp [h.1, h.2]

theorem fv_ok_time (env : Env) (pf : Platform) (now : ℚ)
    (p : DraftPayload) (u : UserProfile) (d : NormalizedDraft)
    (h : further_validated_draft_dict env pf now p u = .ok d) :
    d.last_edit_time = roundMicros (p.timestamp.getD now) := by
  unfold further_validated_draft_dict at h
  repeat' split at h <;> try simp_all
  all_goals simp [← h]

theorem fv_undirected_eq (env : Env) (pf : Platform) (now : ℚ)
    (p : DraftPayload) (u : UserProfile)
    (h : p.type = "" ∨ (p.type = "private" ∧ p.«to» = [])) :
    further_validated_draft_dict env pf now p u =
      (if containsNull (truncate_body pf p.content) then .error .contentNullBytes
       else if roundMicros (p.timestamp.getD now) < 0 then .error .timestampNegative
       else .ok ⟨none, "", truncate_body pf p.content, roundMicros (p.timestamp.getD now)⟩) := by
  unfold further_validated_draft_dict
  rcases h with h | ⟨h1, h2⟩
  · simp [h]
  · simp [h1, h2]

theorem fv_ne_notfound (env : Env) (pf : Platform) (now : ℚ)
    (p : DraftPayload) (u : UserProfile) :
    further_validated_draft_dict env pf now p u ≠ .error .draftDoesNotExist := by
  intro h
  unfold further_validated_draft_dict at h
  repeat' split at h <;> try simp_all
theorem fv_topic_irrelevant_of_ne_stream (env : Env) (pf : Platform) (now : ℚ)
    (p : DraftPayload) (u : UserProfile) (t : String)
    (h : p.type ≠ "stream") :
    further_validated_draft_dict env pf now { p with topic := t } u
      = further_validated_draft_dict env pf now p u := by
  unfold further_validated_draft_dict
  simp [h]

theorem fv_ok_topic_empty_of_ne_stream (env : Env) (pf : Platform) (now : ℚ)
    (p : DraftPayload) (u : UserProfile) (d : NormalizedDraft)
    (hty : p.type ≠ "stream")
    (h : further_validated_draft_dict env pf now p u = .ok d) :
    d.topic = "" := by
  unfold further_validated_draft_dict at h
  repeat' split at h <;> try simp_all
  all_goals simp [← h]

theorem fv_stream_bad_count_fails (env : Env) (pf : Platform) (now : ℚ)
    (p : DraftPayload) (u : UserProfile)
    (hty : p.type = "stream") (hto : p.«to».length ≠ 1) :
    (∃ e, further_validated_draft_dict env pf now p u = .error e)
    ∧ (containsNull (truncate_body pf p.content) = false →
       ¬ roundMicros (p.timestamp.getD now) < 0 →
       containsNull (truncate_topic pf p.topic) = false →
       further_validated_draft_dict env pf now p u
         = .error .mustSpecifyExactlyOneStreamId) := by
  constructor
  · unfold further_validated_draft_dict
    simp only [hty, if_true, ite_true, reduceIte]
    split
    · exact ⟨_, rfl⟩
    · split
      · exact ⟨_, rfl⟩
      · split
        · exact ⟨_, rfl⟩
        · simp [hto]
  · intro h1 h2 h3
    unfold further_validated_draft_dict
    simp [hty, hto, h1, h2, h3]
/-- C5: normalization first truncates content to the platform maximum and
only then checks for null bytes: the content error occurs exactly when
the truncated content still contains a null byte (so an oversized content
whose truncated prefix is clean is accepted even if the cut-off suffix
contained a null byte), and on success the persisted content is the
truncated string — null bytes are rejected, never silently stripped. -/
theorem content_truncated_before_null_check (env : Env) (pf : Platform) (now : ℚ)
    (p : DraftPayload) (u : UserProfile) :
    (further_validated_draft_dict env pf now p u = .error .contentNullBytes
      ↔ containsNull (truncate_body pf p.content) = true) ∧
    ∀ d, further_validated_draft_dict env pf now p u = .ok d →
      d.content = truncate_body pf p.content :=
  ⟨fv_content_error_iff env pf now p u, fun d h => fv_ok_content env pf now p u d h⟩

theorem content_truncated_before_null_check_witness :
    (⟨none, "", "abcdefgh", 0⟩ : NormalizedDraft).content
      = truncate_body pfW (DraftPayload.mk "" [] "t" "abcdefghi\x00" none).content :=
  (content_truncated_before_null_check envW pfW 0
      ⟨"", [], "t", "abcdefghi\x00", none⟩ userA).2 ⟨none, "", "abcdefgh", 0⟩ (by decide)

/-- C6: the derived timestamp is the payload's value (or the wall clock
`now` when absent) rounded to microsecond precision; past the content
check, normalization rejects exactly the strictly negative derived
timestamps — zero and every positive value pass with no upper bound —
and on success the persisted edit time is that derived timestamp. -/
theorem derived_timestamp_rule (env : Env) (pf : Platform) (now : ℚ)
    (p : DraftPayload) (u : UserProfile) :
    (further_validated_draft_dict env pf now p u = .error .timestampNegative
      ↔ containsNull (truncate_body pf p.content) = false
        ∧ roundMicros (p.timestamp.getD now) < 0) ∧
    ∀ d, further_validated_draft_dict env pf now p u = .ok d →
      d.last_edit_time = roundMicros (p.timestamp.getD now) :=
  ⟨fv_timestamp_error_iff env pf now p u, fun d h => fv_ok_time env pf now p u d h⟩

theorem derived_timestamp_rule_witness :
    further_validated_draft_dict envW pfW 0 ⟨"", [], "t", "c", some (-1)⟩ userA
      = .error .timestampNegative ∧
    (⟨none, "", "c", 0⟩ : NormalizedDraft).last_edit_time
      = roundMicros ((some (0 : ℚ)).getD 0) :=
  ⟨(derived_timestamp_rule envW pfW 0 ⟨"", [], "t", "c", some (-1)⟩ userA).1.mpr (by decide),
   (derived_timestamp_rule envW pfW 0 ⟨"", [], "t", "c", some 0⟩ userA).2
     ⟨none, "", "c", 0⟩ (by decide)⟩

/-- C7: for an undirected payload (type `""`, or type `"private"` with an
empty `to` list) normalization consults no resolution service (the result
does not depend on the environment), and a successful normalization has a
null recipient, an empty topic whatever the input topic was, and the
truncated content. -/
theorem undirected_draft_normalization (env env' : Env) (pf : Platform) (now : ℚ)
    (p : DraftPayload) (u : UserProfile)
    (h : p.type = "" ∨ (p.type = "private" ∧ p.«to» = [])) :
    further_validated_draft_dict env pf now p u
      = further_validated_draft_dict env' pf now p u ∧
    ∀ d, further_validated_draft_dict env pf now p u = .ok d →
      d.recipient = none ∧ d.topic = "" ∧ d.content = truncate_body pf p.content := by
  refine ⟨?_, ?_⟩
  · rw [fv_undirected_eq env pf now p u h, fv_undirected_eq env' pf now p u h]
  · intro d hd
    rw [fv_undirected_eq env pf now p u h] at hd
    repeat' split at hd <;> try simp_all
    all_goals simp [← hd]

theorem undirected_draft_normalization_witness :
    (⟨none, "", "hi", 5000000⟩ : NormalizedDraft).recipient = none ∧
    (⟨none, "", "hi", 5000000⟩ : NormalizedDraft).topic = "" ∧
    (⟨none, "", "hi", 5000000⟩ : NormalizedDraft).content
      = truncate_body pfW (DraftPayload.mk "private" [] "x" "hi" (some 5)).content :=
  (undirected_draft_normalization envW envW pfW 0 ⟨"private", [], "x", "hi", some 5⟩ userA
    (by decide)).2 ⟨none, "", "hi", 5000000⟩ (by decide)

/-- C10: for a schema-valid payload whose type is `"private"` or `""`,
the input topic is never truncated and never checked for null bytes —
the outcome of normalization is unchanged under replacing the topic by
any string whatsoever (null bytes, overlong, anything) — and a
successful normalization discards it, forcing the stored topic empty. -/
theorem topic_ignored_for_non_stream (env : Env) (pf : Platform) (now : ℚ)
    (p : DraftPayload) (u : UserProfile)
    (hschema : draft_dict_validator p = true)
    (hty : p.type = "private" ∨ p.type = "") :
    (∀ t, further_validated_draft_dict env pf now { p with topic := t } u
        = further_validated_draft_dict env pf now p u) ∧
    ∀ d, further_validated_draft_dict env pf now p u = .ok d → d.topic = "" := by
  have hne : p.type ≠ "stream" := by rcases hty with h | h <;> simp [h]
  exact ⟨fun t => fv_topic_irrelevant_of_ne_stream env pf now p u t hne,
         fun d hd => fv_ok_topic_empty_of_ne_stream env pf now p u d hne hd⟩

theorem topic_ignored_for_non_stream_witness :
    further_validated_draft_dict envW pfW 0 ⟨"private", [7], "x\x00xxxxx", "c", some 5⟩ userA
      = further_validated_draft_dict envW pfW 0 ⟨"private", [7], "t", "c", some 5⟩ userA :=
  (topic_ignored_for_non_stream envW pfW 0 ⟨"private", [7], "t", "c", some 5⟩ userA
    (by decide) (by decide)).1 "x\x00xxxxx"

/-- C4, counterexample: a schema-valid stream payload whose `to` list has
two ids but whose content holds a null byte fails with the content error,
not the stream-id error — so with `len(to) ≠ 1` the stream-id error is
not produced regardless of content validity. -/
theorem stream_id_error_not_unconditional :
    draft_dict_validator ⟨"stream", [5, 6], "t", "\x00c", some 5⟩ = true ∧
    (DraftPayload.mk "stream" [5, 6] "t" "\x00c" (some 5)).«to».length ≠ 1 ∧
    further_validated_draft_dict envW pfW 0 ⟨"stream", [5, 6], "t", "\x00c", some 5⟩ userA
      ≠ .error .mustSpecifyExactlyOneStreamId ∧
    further_validated_draft_dict envW pfW 0 ⟨"stream", [5, 6], "t", "\x00c", some 5⟩ userA
      = .error .contentNullBytes := by decide

/-- C4, amended: for every schema-valid stream payload whose `to` list
does not hold exactly one id (the empty list included), normalization
always fails with some ValidationError, and the error is the one about
specifying exactly 1 stream id whenever the checks that precede it —
content null byte, negative timestamp, topic null byte — all pass. -/
theorem stream_wrong_to_count_fails (env : Env) (pf : Platform) (now : ℚ)
    (p : DraftPayload) (u : UserProfile)
    (hschema : draft_dict_validator p = true)
    (hty : p.type = "stream") (hto : p.«to».length ≠ 1) :
    (∃ e, further_validated_draft_dict env pf now p u = .error e) ∧
    (containsNull (truncate_body pf p.content) = false →
     ¬ roundMicros (p.timestamp.getD now) < 0 →
     containsNull (truncate_topic pf p.topic) = false →
     further_validated_draft_dict env pf now p u = .error .mustSpecifyExactlyOneStreamId) :=
  fv_stream_bad_count_fails env pf now p u hty hto

theorem stream_wrong_to_count_fails_witness :
    further_validated_draft_dict envW pfW 0 ⟨"stream", [5, 6], "t", "c", some 5⟩ userA
      = .error .mustSpecifyExactlyOneStreamId :=
  (stream_wrong_to_count_fails envW pfW 0 ⟨"stream", [5, 6], "t", "c", some 5⟩ userA
    (by decide) (by decide) (by decide)).2 (by decide) (by decide) (by decide)
theorem normalizeAll_first_error (env : Env) (pf : Platform) (now : ℚ) (u : UserProfile)
    (pre : List DraftPayload) (x : DraftPayload) (post : List DraftPayload) (e : DraftError)
    (hpre : ∀ d ∈ pre, ∃ v, further_validated_draft_dict env pf now d u = .ok v)
    (hx : further_validated_draft_dict env pf now x u = .error e) :
    normalizeAll env pf now u (pre ++ x :: post) = .error e := by
  induction pre with
  | nil => simp [normalizeAll, hx]
  | cons a pre ih =>
    obtain ⟨v, hv⟩ := hpre a (by simp)
    have hrest := ih (fun d hd => hpre d (by simp [hd]))
    simp [normalizeAll, hv, hrest]

theorem normalizeAll_ok_spec (env : Env) (pf : Platform) (now : ℚ) (u : UserProfile)
    (ds : List DraftPayload) (vs : List NormalizedDraft)
    (h : normalizeAll env pf now u ds = .ok vs) :
    vs.length = ds.length ∧
    ∀ i (hi : i < ds.length) (hv : i < vs.length),
      further_validated_draft_dict env pf now (ds.get ⟨i, hi⟩) u = .ok (vs.get ⟨i, hv⟩) := by
  induction ds generalizing vs with
  | nil =>
    simp [normalizeAll] at h
    subst h
    simp
  | cons a ds ih =>
    rw [normalizeAll] at h
    cases hfa : further_validated_draft_dict env pf now a u with
    | error e => rw [hfa] at h; simp at h
    | ok v =>
      rw [hfa] at h
      cases hna : normalizeAll env pf now u ds with
      | error e => rw [hna] at h; simp at h
      | ok vs' =>
        rw [hna] at h
        simp only [Except.ok.injEq] at h
        subst h
        obtain ⟨hlen, hget⟩ := ih vs' hna
        refine ⟨by simp [hlen], ?_⟩
        intro i hi hvlt
        cases i with
        | zero => simpa using hfa
        | succ n =>
          exact hget n (by simpa using hi) (by simpa using hvlt)

theorem buildDraftObjects_map_id (u : UserProfile) (n : Nat) (vs : List NormalizedDraft) :
    (buildDraftObjects u n vs).map (·.id) = List.range' n vs.length := by
  induction vs generalizing n with
  | nil => simp [buildDraftObjects]
  | cons v vs ih => simp [buildDraftObjects, ih, List.range'_succ]

/-- C1: create-batch normalizes all payloads before persisting anything.
If some entry fails normalization while all entries before it succeed,
the whole operation returns that entry's error and the store is returned
unchanged (no draft persisted, no ids returned).  If every entry
normalizes, the records built from the normalized entries are appended to
the store in one bulk insertion and the assigned ids — consecutive keys
starting at the store's next free key — come back in payload order (the
i-th id is the key of the row built from the i-th payload). -/
theorem do_create_drafts_batch_atomic (env : Env) (pf : Platform) (now : ℚ)
    (ds : List DraftPayload) (u : UserProfile) (db : DB)
    (hschema : ∀ d ∈ ds, draft_dict_validator d = true) :
    (∀ pre x post e, ds = pre ++ x :: post →
       (∀ d ∈ pre, ∃ v, further_validated_draft_dict env pf now d u = .ok v) →
       further_validated_draft_dict env pf now x u = .error e →
       do_create_drafts env pf now ds u db = (db, .error e)) ∧
    (∀ vs, normalizeAll env pf now u ds = .ok vs →
       vs.length = ds.length ∧
       (∀ i (hi : i < ds.length) (hv : i < vs.length),
         further_validated_draft_dict env pf now (ds.get ⟨i, hi⟩) u = .ok (vs.get ⟨i, hv⟩)) ∧
       do_create_drafts env pf now ds u db =
         ({ db with drafts := db.drafts ++ buildDraftObjects u db.nextId vs,
                    nextId := db.nextId + vs.length },
          .ok (List.range' db.nextId vs.length))) := by
  constructor
  · intro pre x post e hds hpre hx
    subst hds
    unfold do_create_drafts
    rw [normalizeAll_first_error env pf now u pre x post e hpre hx]
  · intro vs hvs
    obtain ⟨hlen, hget⟩ := normalizeAll_ok_spec env pf now u ds vs hvs
    refine ⟨hlen, hget, ?_⟩
    unfold do_create_drafts
    rw [hvs]
    simp [buildDraftObjects_map_id]

theorem do_create_drafts_batch_atomic_witness :
    do_create_drafts envW pfW 0 [payloadW, ⟨"", [], "", "bad\x00", none⟩] userA dbW
      = (dbW, .error .contentNullBytes) :=
  (do_create_drafts_batch_atomic envW pfW 0 [payloadW, ⟨"", [], "", "bad\x00", none⟩]
      userA dbW (by decide)).1 [payloadW] ⟨"", [], "", "bad\x00", none⟩ [] .contentNullBytes
    rfl
    (fun d hd => ⟨⟨none, "", "hi", 5000000⟩, by
      have hdw : d = payloadW := by simpa using hd
      rw [hdw]; decide⟩)
    (by decide)
theorem findDraft_none_of_other_owner (db : DB) (i : Nat) (A B : UserProfile)
    (hOnly : ∀ d ∈ db.drafts, d.id = i → d.user_profile = A.id)
    (hNe : B.id ≠ A.id) :
    findDraft db i B = none := by
  unfold findDraft
  rw [List.find?_eq_none]
  intro d hd hmem
  simp only [Bool.and_eq_true, beq_iff_eq] at hmem
  exact hNe (hmem.2.symm.trans (hOnly d hd hmem.1))

/-- C2: a draft persisted for owner A is invisible to every other user B
through the same id: both edit and delete look the row up scoped to the
`(id, user)` pair (`findDraft`), so for B they fail with the not-found
error and return the store unchanged — A's draft is untouched. -/
theorem edit_delete_scoped_to_owner (env : Env) (pf : Platform) (now : ℚ)
    (i : Nat) (p : DraftPayload) (A B : UserProfile) (db : DB)
    (hA : ∃ d ∈ db.drafts, d.id = i ∧ d.user_profile = A.id)
    (hOnly : ∀ d ∈ db.drafts, d.id = i → d.user_profile = A.id)
    (hNe : B.id ≠ A.id) :
    do_edit_draft env pf now i p B db = (db, .error .draftDoesNotExist) ∧
    do_delete_draft i B db = (db, .error .draftDoesNotExist) := by
  have hfind : findDraft db i B = none := findDraft_none_of_other_owner db i A B hOnly hNe
  constructor
  · unfold do_edit_draft
    rw [hfind]
  · unfold do_delete_draft
    rw [hfind]

theorem edit_delete_scoped_to_owner_witness :
    do_edit_draft envW pfW 0 10 payloadW userB dbW = (dbW, .error .draftDoesNotExist) ∧
    do_delete_draft 10 userB dbW = (dbW, .error .draftDoesNotExist) :=
  edit_delete_scoped_to_owner envW pfW 0 10 payloadW userA userB dbW
    ⟨draftA, by decide, by decide, by decide⟩ (by decide) (by decide)

/-- C8: in the edit operation (sync enabled, structurally valid payload),
the not-found outcome arises exactly when the `(id, user)`-scoped lookup
finds nothing — the id is absent or owned by another user; when the
lookup succeeds and normalization fails semantically, that error is
surfaced verbatim as the outcome, and it is never the not-found error. -/
theorem edit_outcome_classification (env : Env) (pf : Platform) (now : ℚ)
    (i : Nat) (p : DraftPayload) (u : UserProfile) (db : DB)
    (hflag : u.enable_drafts_synchronization = true)
    (hschema : draft_dict_validator p = true) :
    ((edit_draft env pf now i p u db).2 = .error .draftDoesNotExist
       ↔ findDraft db i u = none) ∧
    ∀ e, further_validated_draft_dict env pf now p u = .error e →
      findDraft db i u ≠ none →
      edit_draft env pf now i p u db = (db, .error e) ∧ e ≠ .draftDoesNotExist := by
  unfold edit_draft draft_endpoint
  simp only [hflag, hschema, if_true, ite_true, reduceIte]
  constructor
  · cases hf : findDraft db i u with
    | none => simp [do_edit_draft, hf]
    | some d =>
      unfold do_edit_draft
      rw [hf]
      cases hv : further_validated_draft_dict env pf now p u with
      | error e =>
        simp only [Except.error.injEq]
        constructor
        · intro h
          exact absurd (h ▸ hv) (fv_ne_notfound env pf now p u)
        · intro h
          exact absurd h (by simp)
      | ok v => simp
  · intro e he hne
    cases hf : findDraft db i u with
    | none => exact absurd hf hne
    | some d =>
      refine ⟨?_, ?_⟩
      · unfold do_edit_draft
        rw [hf, he]
      · intro hcon
        rw [hcon] at he
        exact fv_ne_notfound env pf now p u he

theorem edit_outcome_classification_witness :
    edit_draft envW pfW 0 10 ⟨"", [], "t", "x\x00", some 5⟩ userA dbW
      = (dbW, .error .contentNullBytes) ∧
    DraftError.contentNullBytes ≠ .draftDoesNotExist :=
  (edit_outcome_classification envW pfW 0 10 ⟨"", [], "t", "x\x00", some 5⟩ userA dbW
    (by decide) (by decide)).2 .contentNullBytes (by decide) (by decide)
theorem saveSyncFlag_frame (users : List UserProfile) (u : UserProfile) (b : Bool) :
    usersOnlyFlagChanged (saveSyncFlag users u b) users u b := by
  refine ⟨by simp [saveSyncFlag], ?_⟩
  intro i h1 h2
  simp only [saveSyncFlag, List.getElem_map]
  by_cases h : users[i].id = u.id <;> simp [h]

/-- C9: disabling sync persists exactly the flag flip on the user table —
every row keeps its id, realm and name, only rows with the acting user's
id get their sync flag set false — and then deletes precisely that user's
drafts, leaving every other user's drafts (and the id counter) in place;
enabling sync persists the same one-field flip to true and deletes
nothing. -/
theorem sync_toggle_frame (u : UserProfile) (db : DB) :
    ((do_disable_drafts_syncing u db).drafts
       = db.drafts.filter (fun d => ¬ d.user_profile = u.id)) ∧
    (do_disable_drafts_syncing u db).nextId = db.nextId ∧
    usersOnlyFlagChanged (do_disable_drafts_syncing u db).users db.users u false ∧
    (do_enable_drafts_syncing u db).drafts = db.drafts ∧
    (do_enable_drafts_syncing u db).nextId = db.nextId ∧
    usersOnlyFlagChanged (do_enable_drafts_syncing u db).users db.users u true := by
  refine ⟨?_, rfl, saveSyncFlag_frame db.users u false, rfl, rfl,
    saveSyncFlag_frame db.users u true⟩
  unfold do_disable_drafts_syncing
  simp only []
  apply List.filter_congr
  intro d _
  by_cases h : d.user_profile = u.id <;> simp [h]

theorem sync_toggle_frame_witness :
    (do_disable_drafts_syncing userA dbW).drafts
      = dbW.drafts.filter (fun d => ¬ d.user_profile = userA.id) :=
  (sync_toggle_frame userA dbW).1

/-- C3: every exposed draft view is wrapped in the sync-preference gate.
When the acting user's `enable_drafts_synchronization` flag is false,
list, create-batch, edit and delete all return the precondition error
with the store untouched, whatever the payloads, the id or the store —
so before any payload validation or store access; when the flag is true,
each view is exactly its ungated body, so the operations are reachable
again once the flag is re-enabled. -/
theorem sync_gate_precondition (env : Env) (pf : Platform) (now : ℚ)
    (ds : List DraftPayload) (i : Nat) (p : DraftPayload)
    (u : UserProfile) (db : DB) :
    (u.enable_drafts_synchronization = false →
       fetch_drafts u db = (db, .error .syncNotEnabled) ∧
       create_drafts env pf now ds u db = (db, .error .syncNotEnabled) ∧
       edit_draft env pf now i p u db = (db, .error .syncNotEnabled) ∧
       delete_draft i u db = (db, .error .syncNotEnabled)) ∧
    (u.enable_drafts_synchronization = true →
       (fetch_drafts u db).2
         = .ok ((sortByTime (db.drafts.filter (fun d => d.user_profile == u.id))).length,
                sortByTime (db.drafts.filter (fun d => d.user_profile == u.id))) ∧
       create_drafts env pf now ds u db
         = (if ds.all draft_dict_validator then do_create_drafts env pf now ds u db
            else (db, .error .schemaError)) ∧
       edit_draft env pf now i p u db
         = (if draft_dict_validator p then do_edit_draft env pf now i p u db
            else (db, .error .schemaError)) ∧
       delete_draft i u db = do_delete_draft i u db) := by
  constructor
  · intro hoff
    refine ⟨?_, ?_, ?_, ?_⟩ <;>
      simp [fetch_drafts, create_drafts, edit_draft, delete_draft, draft_endpoint, hoff]
  · intro hon
    refine ⟨?_, ?_, ?_, ?_⟩ <;>
      simp [fetch_drafts, create_drafts, edit_draft, delete_draft, draft_endpoint, hon]

theorem sync_gate_precondition_witness :
    fetch_drafts userOff dbW = (dbW, .error .syncNotEnabled) ∧
    delete_draft 10 userA dbW = do_delete_draft 10 userA dbW :=
  ⟨((sync_gate_precondition envW pfW 0 [] 0 payloadW userOff dbW).1 (by decide)).1,
   ((sync_gate_precondition envW pfW 0 [] 10 payloadW userA dbW).2 (by decide)).2.2.2⟩
